import Mathlib

/-!
Verification of the netexp console-automation library (netexp/helpers.py and
netexp/pktgen/dpdk.py) against its natural-language specification.

Transcripts and console text are modelled as `List Char` (a Python `str` is a
sequence of code points).  Interactive loops that poll a remote channel are
modelled over the finite sequence of values the channel delivers: a list of
received chunks for `watch_command`, a list of per-second counter readings for
`wait_transmission_done`, a list of per-attempt transcripts for the FPGA
bring-up loops.  Wall-clock sleeps are not modelled; only the decision logic
that consumes the polled values is.
-/

namespace Netexp

/-! ## wait_transmission_done (dpdk.py, lines 400-411)

The Python loop is

    pkts_tx = 0
    while pkts_tx < self.target_pkt_tx:
        time.sleep(1)
        old_pkt_tx = pkts_tx
        pkts_tx = self.get_nb_tx_pkts()
        if old_pkt_tx == pkts_tx:
            raise RuntimeError("Pktgen is not making progress")

`waitLoop target pktsTx polls` runs this loop with remembered count `pktsTx`
over the successive values `polls` that `get_nb_tx_pkts` returns.  `pending`
models the loop still running when the supplied readings are exhausted. -/

inductive WaitResult where
  | done : WaitResult
  | noProgress : WaitResult
  | pending : WaitResult
deriving DecidableEq, Repr

def waitLoop (target : Nat) (pktsTx : Nat) : List Nat → WaitResult
  | [] => if pktsTx < target then .pending else .done
  | p :: ps =>
    if pktsTx < target then
      if pktsTx = p then .noProgress else waitLoop target p ps
    else .done

/-- `hasStall target prev polls` holds when some reading in `prev :: polls`
is repeated by the next reading while still strictly below `target`:
the condition under which the code raises its no-progress error. -/
def hasStall (target : Nat) : Nat → List Nat → Bool
  | _, [] => false
  | prev, p :: ps => (decide (prev = p) && decide (prev < target)) || hasStall target p ps

/-- `hasAdjacentEqual polls` holds when two consecutive actual polls report
the same value (the reading the claim calls "two consecutive polls"). -/
def hasAdjacentEqual : List Nat → Bool
  | [] => false
  | [_] => false
  | a :: b :: r => decide (a = b) || hasAdjacentEqual (b :: r)

/-! ## set_rate (dpdk.py, lines 395-398)

    def set_rate(self, capacity, tx_port=None):
        assert capacity > 0 and capacity <= 100
        tx_port = tx_port or self.tx_port
        self.commands(f"set {tx_port} rate {capacity}")

The assert runs before anything is sent; `none` models the AssertionError
(no command sent), `some (port, rate)` the single rate command sent. -/

def setRateCommand (capacity : ℚ) (txPort : Nat) : Option (Nat × ℚ) :=
  if 0 < capacity ∧ capacity ≤ 100 then some (txPort, capacity) else none

/-! ## Default-port resolution (dpdk.py)

`start` (line 376), `set_rate` (line 397) and `stop` (line 415) resolve the
port with Python's `tx_port or self.tx_port`, in which both `None` and `0`
are falsy; `set_params` (lines 354-355) instead tests `tx_port is None`. -/

def pyOrPort (arg : Option Nat) (dflt : Nat) : Nat :=
  match arg with
  | none => dflt
  | some v => if v = 0 then dflt else v

def startTxPort (arg : Option Nat) (dflt : Nat) : Nat := pyOrPort arg dflt

def setRateTxPort (arg : Option Nat) (dflt : Nat) : Nat := pyOrPort arg dflt

def stopTxPort (arg : Option Nat) (dflt : Nat) : Nat := pyOrPort arg dflt

def setParamsTxPort (arg : Option Nat) (dflt : Nat) : Nat :=
  match arg with
  | none => dflt
  | some v => v

/-! ## Statistics queries (dpdk.py, lines 431-475)

`_get_stats(subtype, stat_name, port)` sends one lua expression naming a
subtype table, a field and a port.  Each getter fixes the three values. -/

structure LuaStatsQuery where
  subtype : String
  stat : String
  port : Nat
deriving DecidableEq, Repr

/-- Query sent by `get_mbits_rx` (dpdk.py line 454). -/
def mbitsRxQuery (rxPort : Nat) : LuaStatsQuery := ⟨"rate", "mbits_rx", rxPort⟩

/-- Query sent by `get_mbits_tx` exactly as written at dpdk.py line 457. -/
def mbitsTxQuery (txPort : Nat) : LuaStatsQuery := ⟨"rate", "mbits_rx", txPort⟩

/-- `get_rx_throughput` returns the parsed megabit value times 1,000,000. -/
def rxThroughputFrom (mbits : Nat) : Nat := mbits * 1000000

/-- `get_tx_throughput` returns the parsed megabit value times 1,000,000. -/
def txThroughputFrom (mbits : Nat) : Nat := mbits * 1000000

/-! ## Readiness handling (dpdk.py)

`launch` ends with `self.ready = False` (line 275); `wait_ready` watches for
the idle prompt and then sets `self.ready = True` (lines 320-327);
`set_params` (lines 357-358) and `start` (lines 378-379) run
`if not self.ready: self.wait_ready(...)` before sending; `_get_stats`
(lines 431-445) sends its query with no readiness check at all.

Each `...EnsureReady` function maps the current `ready` flag to the pair
(did the operation wait for readiness before sending?, `ready` afterwards). -/

def launchReadyFlag : Bool := false

def waitReadyFlag : Bool := true

def promptPattern : List Char := ("\r\nPktgen:/>").toList

def setParamsEnsureReady (ready : Bool) : Bool × Bool :=
  if ready then (false, ready) else (true, waitReadyFlag)

def startEnsureReady (ready : Bool) : Bool × Bool :=
  if ready then (false, ready) else (true, waitReadyFlag)

def getStatsEnsureReady (ready : Bool) : Bool × Bool := (false, ready)

/-! ## Substring containment (Python's `needle in haystack` on str) -/

def startsWithChars : List Char → List Char → Bool
  | [], _ => true
  | _ :: _, [] => false
  | c :: cs, h :: hs => decide (c = h) && startsWithChars cs hs

def containsChars (needle : List Char) : List Char → Bool
  | [] => startsWithChars needle []
  | h :: hs => startsWithChars needle (h :: hs) || containsChars needle hs

/-! ## watch_command (helpers.py, lines 60-105)

    output = ''
    def continue_running():
        if (stop_pattern is not None):
            search_len = min(len(output), max_match_length)
            if re.search(stop_pattern, output[-search_len:]):
                return False
        return not stop_condition()
    while continue_running():
        time.sleep(0.01)
        if command.recv_ready(): ... output += decoded_data
        if command.recv_stderr_ready(): ... output += decoded_data

`charsWindow maxLen s` is the slice `output[-search_len:]` with
`search_len = min(len(output), max_match_length)`; note the Python slice
`s[-0:]` denotes the whole string, so a zero `search_len` searches the
entire buffer.  `watchOutput m maxLen acc chunks` runs the loop: `m`
abstracts `re.search(stop_pattern, .)` as a predicate on the searched text,
`chunks` are the successive data chunks the channel delivers (one per loop
iteration), and exhaustion of `chunks` models `stop_condition` turning true.
The returned value is the accumulated transcript at the moment the loop
stops. -/

def charsWindow (maxLen : Nat) (s : List Char) : List Char :=
  if min s.length maxLen = 0 then s
  else s.drop (s.length - min s.length maxLen)

/-- Trailing window of at most `n` characters, the spec's reading of
"the trailing max_match_length characters of the transcript". -/
def trailingChars (n : Nat) (s : List Char) : List Char :=
  s.drop (s.length - n)

def watchOutput (m : List Char → Bool) (maxLen : Nat) (acc : List Char) :
    List (List Char) → List Char
  | [] => acc
  | c :: cs =>
    if m (charsWindow maxLen acc) then acc else watchOutput m maxLen (acc ++ c) cs

/-- Matcher for the literal pattern "ab" (a regex with no metacharacters
matches exactly where the literal substring occurs). -/
def abMatcher (s : List Char) : Bool := containsChars (("ab").toList) s

/-! ## Bitstream load retry loop (helpers.py, RemoteIntelFpga.setup, lines 262-284)

    retries = 0
    while load_bitstream:
        app = remote_command(...)
        output = watch_command(app, ...)
        status = app.recv_exit_status()
        if status == 0:
            break
        if 'Synchronization failed' in output:
            raise RuntimeError('Synchronization failed, try power cycling the host')
        retries += 1
        if retries >= 5:
            raise RuntimeError(f'Failed to load bitstream {retries} times')

One `Attempt` is the observable outcome of one remote run of the
load-bitstream script: its transcript and its exit status. -/

structure Attempt where
  status : Nat
  output : List Char
deriving DecidableEq

def syncMarker : List Char := ("Synchronization failed").toList

inductive LoadResult where
  | success : LoadResult
  | syncFailed : LoadResult
  | loadFailed : Nat → LoadResult
  | pending : LoadResult
deriving DecidableEq, Repr

def loadBitstream (retries : Nat) : List Attempt → LoadResult
  | [] => .pending
  | a :: rest =>
    if a.status = 0 then .success
    else if containsChars syncMarker a.output then .syncFailed
    else if 5 ≤ retries + 1 then .loadFailed (retries + 1)
    else loadBitstream (retries + 1) rest

/-! ## Console launch and device auto-detection
(helpers.py, RemoteIntelFpga.launch_console, lines 224-260)

    while True:
        ...
        output = watch_command(app, ..., timeout=2)
        lines = output.split('\n')
        lines = [ln for ln in lines
                 if f'@1#{self.fpga_id}#Intel ' in ln and ': ' in ln]
        if len(lines) == 1:
            break
        app.send('\x03')
        retries += 1
        if retries >= max_retries:
            raise RuntimeError(f'Failed to determine device {retries} times')
        time.sleep(1)
    device = lines[0].split(':')[0]
    self.run_jtag_commands(f'set_jtag {device}')

`pySplit1 sep` is Python's `str.split(sep)` for a one-character separator.
`launchConsole` consumes one transcript per attempt and returns the outcome
together with the number of interrupt bytes ('\x03') sent. -/

def pySplit1 (sep : Char) : List Char → List (List Char)
  | [] => [[]]
  | c :: rest =>
    match pySplit1 sep rest with
    | [] => [[c]]
    | l :: ls => if c = sep then [] :: l :: ls else (c :: l) :: ls

/-- `lines[0].split(':')[0]`: the part of a line before its first colon. -/
def pyFirstField (l : List Char) : List Char :=
  match pySplit1 ':' l with
  | [] => []
  | f :: _ => f

def deviceMarker (fid : List Char) : List Char :=
  ("@1#").toList ++ fid ++ ("#Intel ").toList

def colonSpace : List Char := (": ").toList

def matchingLines (fid out : List Char) : List (List Char) :=
  (pySplit1 '\n' out).filter
    (fun ln => containsChars (deviceMarker fid) ln && containsChars colonSpace ln)

inductive ConsoleResult where
  | launched : List Char → ConsoleResult
  | failed : Nat → ConsoleResult
  | pending : ConsoleResult
deriving DecidableEq

def launchConsole (fid : List Char) (maxRetries retries : Nat) :
    List (List Char) → ConsoleResult × Nat
  | [] => (.pending, 0)
  | out :: rest =>
    if (matchingLines fid out).length = 1 then
      (.launched (pyFirstField (matchingLines fid out).headI), 0)
    else if maxRetries ≤ retries + 1 then (.failed (retries + 1), 1)
    else
      ((launchConsole fid maxRetries (retries + 1) rest).1,
       (launchConsole fid maxRetries (retries + 1) rest).2 + 1)

/-- Command issued through the JTAG sequencer after detection
(helpers.py line 260: `f'set_jtag {device}'`). -/
def jtagCommandFor (device : List Char) : List Char :=
  ("set_jtag ").toList ++ device

def consoleJtag : ConsoleResult → Option (List Char)
  | .launched d => some (jtagCommandFor d)
  | _ => none

/-! ## Statistics parsing (dpdk.py, DpdkPktgen._get_stats, lines 431-445)

    lines = output.split("\r\n")
    lines = [ln for ln in lines if ln.isdigit()]
    return int(lines[-1])

`splitRN` is `str.split("\r\n")`; `none` models the IndexError raised when
no digit-only line is present.  `pyIsDigit` restricts Python's
`str.isdigit` to the ASCII digits the console emits. -/

def splitRN : List Char → List (List Char)
  | [] => [[]]
  | '\r' :: '\n' :: rest => [] :: splitRN rest
  | c :: rest =>
    match splitRN rest with
    | [] => [[c]]
    | l :: ls => (c :: l) :: ls

def pyIsDigit (c : Char) : Bool := decide ('0' ≤ c) && decide (c ≤ '9')

def isDigitLine (l : List Char) : Bool := decide (l ≠ []) && l.all pyIsDigit

def digitsToNat (l : List Char) : Nat :=
  l.foldl (fun a c => 10 * a + (c.toNat - 48)) 0

def getStatsValue (out : List Char) : Option Nat :=
  ((splitRN out).filter isDigitLine).getLast?.map digitsToNat

/-! ## Lemmas about wait_transmission_done -/

theorem waitLoop_stall_of_run (target : Nat) :
    ∀ (pre : List Nat) (prev a : Nat) (post : List Nat),
      prev < target → (∀ x ∈ pre, x < target) → a < target →
      waitLoop target prev (pre ++ a :: a :: post) = .noProgress := by
  intro pre
  induction pre with
  | nil =>
    intro prev a post hprev _ ha
    simp only [List.nil_append]
    unfold waitLoop
    rw [if_pos hprev]
    by_cases h : prev = a
    · rw [if_pos h]
    · rw [if_neg h]
      unfold waitLoop
      rw [if_pos ha, if_pos rfl]
  | cons q pre ih =>
    intro prev a post hprev hpre ha
    simp only [List.cons_append]
    unfold waitLoop
    rw [if_pos hprev]
    by_cases h : prev = q
    · rw [if_pos h]
    · rw [if_neg h]
      exact ih q a post (hpre q (by simp)) (fun x hx => hpre x (by simp [hx])) ha

theorem waitLoop_noProgress_stall (target : Nat) :
    ∀ (polls : List Nat) (prev : Nat),
      waitLoop target prev polls = .noProgress → hasStall target prev polls = true := by
  intro polls
  induction polls with
  | nil =>
    intro prev h
    unfold waitLoop at h
    split at h <;> simp_all
  | cons p ps ih =>
    intro prev h
    unfold waitLoop at h
    by_cases h1 : prev < target
    · rw [if_pos h1] at h
      by_cases h2 : prev = p
      · subst h2
        simp [hasStall, h1]
      · rw [if_neg h2] at h
        simp [hasStall, ih p h]
    · rw [if_neg h1] at h
      simp_all

theorem waitLoop_done_of_ge (target prev : Nat) (polls : List Nat)
    (h : target ≤ prev) : waitLoop target prev polls = .done := by
  cases polls <;> unfold waitLoop <;> rw [if_neg (by omega)]

theorem waitLoop_reaches_done (target : Nat) :
    ∀ (pre : List Nat) (prev b : Nat) (rest : List Nat),
      prev < target → (∀ x ∈ pre, x < target) →
      hasStall target prev pre = false → target ≤ b →
      waitLoop target prev (pre ++ b :: rest) = .done := by
  intro pre
  induction pre with
  | nil =>
    intro prev b rest hprev _ _ hb
    simp only [List.nil_append]
    unfold waitLoop
    rw [if_pos hprev]
    rw [if_neg (by omega : ¬ prev = b)]
    exact waitLoop_done_of_ge target b rest hb
  | cons q pre ih =>
    intro prev b rest hprev hpre hst hb
    unfold hasStall at hst
    have hparts := Bool.or_eq_false_iff.mp hst
    have h2 : prev ≠ q := by
      intro he
      subst he
      have := hparts.1
      simp [hprev] at this
    simp only [List.cons_append]
    unfold waitLoop
    rw [if_pos hprev, if_neg h2]
    exact ih q b rest (hpre q (by simp)) (fun x hx => hpre x (by simp [hx]))
      hparts.2 hb

/-! ## Claim theorems -/

/-- C10: `wait_transmission_done` initializes its remembered transmitted-packet
count to 0 before the first poll, so whenever `target_tx_count > 0` and the
very first poll reads 0, it raises the no-progress error after that single
poll, whatever later polls would have returned. -/
theorem wait_zero_first_poll (target : Nat) (rest : List Nat) (h : 0 < target) :
    waitLoop target 0 (0 :: rest) = .noProgress := by
  unfold waitLoop
  rw [if_pos h, if_pos rfl]

/-- Witness for C10 at `target = 1`, first poll reading 0. -/
theorem wait_zero_first_poll_witness : waitLoop 1 0 [0] = .noProgress :=
  wait_zero_first_poll 1 [] (by decide)

/-- Counterexample to C2 as stated: with `target_tx_count = 1` and polls
reading 0 then 1, no two consecutive polls report an identical count, and the
second poll reaches the target, so the claim says the loop keeps going and
returns; the code instead raises the no-progress error at the first poll
(its remembered count is initialized to 0, not to an actual first poll). -/
theorem wait_first_poll_cex :
    waitLoop 1 0 [0, 1] = .noProgress ∧
    waitLoop 1 0 [0, 1] ≠ .done ∧
    hasAdjacentEqual [0, 1] = false := by decide

/-- C2 (amended): `wait_transmission_done` starts from a remembered count
of 0, which acts as a pseudo-poll before the first real poll.  It raises the
no-progress error whenever a reading of the sequence 0, poll₁, poll₂, … is
repeated by the next reading while strictly below `target_tx_count` (and the
readings up to that repetition stay below the target); it raises only when
such a repetition occurs; otherwise it keeps looping and returns as soon as a
poll reaches `target_tx_count`. -/
theorem wait_transmission_progress (target : Nat) (pre : List Nat) (a b : Nat)
    (post rest polls : List Nat) :
    ((∀ x ∈ pre, x < target) → a < target →
      waitLoop target 0 (pre ++ a :: a :: post) = .noProgress) ∧
    (waitLoop target 0 polls = .noProgress → hasStall target 0 polls = true) ∧
    (0 < target → (∀ x ∈ pre, x < target) → hasStall target 0 pre = false →
      target ≤ b → waitLoop target 0 (pre ++ b :: rest) = .done) := by
  refine ⟨?_, ?_, ?_⟩
  · intro hpre ha
    exact waitLoop_stall_of_run target pre 0 a post (by omega) hpre ha
  · intro h
    exact waitLoop_noProgress_stall target polls 0 h
  · intro ht hpre hst hb
    exact waitLoop_reaches_done target pre 0 b rest ht hpre hst hb

/-- Witness for C2's amended theorem: a stalled run raises, a raise implies a
repeated reading, and a clean run reaching the target returns. -/
theorem wait_transmission_progress_witness :
    waitLoop 3 0 [1, 2, 2] = .noProgress ∧
    hasStall 3 0 [1, 1] = true ∧
    waitLoop 3 0 [1, 2, 5] = .done :=
  ⟨(wait_transmission_progress 3 [1] 2 5 [] [] [1, 1]).1 (by decide) (by decide),
   (wait_transmission_progress 3 [1] 2 5 [] [] [1, 1]).2.1 (by decide),
   (wait_transmission_progress 3 [1, 2] 2 5 [] [] [1, 1]).2.2 (by decide)
     (by decide) (by decide) (by decide)⟩

/-- C8: `set_rate` rejects any capacity outside `0 < capacity ≤ 100` before
sending anything to the console, and for any capacity inside the range it
sends the single rate-setting command for the resolved port. -/
theorem set_rate_validation (c : ℚ) (p : Nat) :
    (c ≤ 0 ∨ 100 < c → setRateCommand c p = none) ∧
    (0 < c → c ≤ 100 → setRateCommand c p = some (p, c)) := by
  constructor
  · intro h
    unfold setRateCommand
    rw [if_neg]
    rintro ⟨h1, h2⟩
    rcases h with h | h
    · exact absurd h1 (not_lt.mpr h)
    · exact absurd h2 (not_le.mpr h)
  · intro h1 h2
    unfold setRateCommand
    rw [if_pos ⟨h1, h2⟩]

/-- Witness for C8 at capacities 101 (rejected) and 50 (sent). -/
theorem set_rate_validation_witness :
    setRateCommand 101 0 = none ∧ setRateCommand 50 3 = some (3, 50) :=
  ⟨(set_rate_validation 101 0).1 (Or.inr (by norm_num)),
   (set_rate_validation 50 3).2 (by norm_num) (by norm_num)⟩

/-- C9: `start`, `set_rate` and `stop` combine the argument with
`tx_port or self.tx_port`, so an explicit port 0 is indistinguishable from an
omitted argument and resolves to the instance default; `set_params` tests
`tx_port is None` and so honors an explicit port 0. -/
theorem tx_port_zero_default (d v : Nat) :
    startTxPort (some 0) d = startTxPort none d ∧
    startTxPort (some 0) d = d ∧
    setRateTxPort (some 0) d = d ∧
    stopTxPort (some 0) d = d ∧
    setParamsTxPort (some 0) d = 0 ∧
    startTxPort (some v) d = (if v = 0 then d else v) ∧
    setRateTxPort (some v) d = (if v = 0 then d else v) ∧
    stopTxPort (some v) d = (if v = 0 then d else v) ∧
    setParamsTxPort (some v) d = v :=
  ⟨rfl, rfl, rfl, rfl, rfl, rfl, rfl, rfl, rfl⟩

/-- C7 (code evaluated at the failing input): `get_mbits_tx`, which backs
`get_tx_throughput`, queries the rate field `"mbits_rx"` — the same field as
the rx getter — instead of `"mbits_tx"`; the multiply-by-1,000,000 step is as
specified. -/
theorem get_tx_throughput_queries_rx_stat :
    (mbitsTxQuery 1).stat = "mbits_rx" ∧
    (mbitsTxQuery 1).stat ≠ "mbits_tx" ∧
    (mbitsTxQuery 1).stat = (mbitsRxQuery 0).stat ∧
    txThroughputFrom 5 = 5000000 ∧
    rxThroughputFrom 5 = 5000000 := by
  refine ⟨rfl, by decide, rfl, rfl, rfl⟩

/-- Counterexample to C6 as stated: a statistics query issued while `ready`
is false sends its console command without waiting for readiness
(`_get_stats` has no readiness check). -/
theorem readiness_stats_cex :
    (getStatsEnsureReady false).1 = false ∧
    ¬ (getStatsEnsureReady false).1 = true := by decide

/-- C6 (amended): `ready` is false from `launch` until `wait_ready` observes
the idle prompt; `set_params` and `start`, when invoked while `ready` is
false, wait for readiness (and leave `ready` true) before sending their
console commands; statistics queries, however, send their console command
without checking or waiting for readiness. -/
theorem readiness_gate :
    launchReadyFlag = false ∧ waitReadyFlag = true ∧
    (∀ r : Bool, setParamsEnsureReady r = (!r, true) ∧
      startEnsureReady r = (!r, true) ∧
      getStatsEnsureReady r = (false, r)) := by decide

/-- C5: the statistics value returned by `_get_stats` is the integer parsed
from the last digit-only line of the transcript split on CRLF (`none` when no
digit-only line exists, the code's IndexError); in particular a transcript
whose digit-only lines are "7" then "1523" yields 1523. -/
theorem get_stats_last_digit_line (out : List Char) (pre : List (List Char))
    (v : List Char) :
    ((splitRN out).filter isDigitLine = pre ++ [v] →
      getStatsValue out = some (digitsToNat v)) ∧
    ((splitRN out).filter isDigitLine = [] → getStatsValue out = none) ∧
    getStatsValue (("7\r\n1523\r\nPktgen:/> ").toList) = some 1523 := by
  refine ⟨?_, ?_, ?_⟩
  · intro h
    unfold getStatsValue
    rw [h, List.getLast?_concat]
    rfl
  · intro h
    unfold getStatsValue
    rw [h]
    rfl
  · decide

/-- Witness for C5: a transcript with one digit-only line parses to it, and a
transcript with none yields the error case. -/
theorem get_stats_last_digit_line_witness :
    getStatsValue (("x\r\n42").toList) = some 42 ∧
    getStatsValue (("abc").toList) = none :=
  ⟨(get_stats_last_digit_line (("x\r\n42").toList) [] (("42").toList)).1
     (by decide),
   (get_stats_last_digit_line (("abc").toList) [] []).2.1 (by decide)⟩

/-! ## Lemmas about the bitstream-load retry loop -/

theorem loadBitstream_fail_run :
    ∀ (bad : List Attempt) (r : Nat) (rest : List Attempt),
      bad ≠ [] →
      (∀ b ∈ bad, b.status ≠ 0 ∧ containsChars syncMarker b.output = false) →
      r + bad.length = 5 →
      loadBitstream r (bad ++ rest) = .loadFailed 5 := by
  intro bad
  induction bad with
  | nil =>
    intro r rest h
    exact absurd rfl h
  | cons a bad ih =>
    intro r rest _ hall hlen
    have ha := hall a (by simp)
    simp only [List.length_cons] at hlen
    simp only [List.cons_append]
    unfold loadBitstream
    rw [if_neg ha.1, if_neg (by simp [ha.2])]
    by_cases hb : bad = []
    · subst hb
      simp only [List.length_nil, Nat.zero_add] at hlen
      rw [if_pos (by omega)]
      have : r + 1 = 5 := by omega
      rw [this]
    · have hpos : 0 < bad.length := List.length_pos.mpr hb
      rw [if_neg (by omega : ¬ 5 ≤ r + 1)]
      exact ih (r + 1) rest hb (fun b hb' => hall b (by simp [hb'])) (by omega)

theorem loadBitstream_success_after :
    ∀ (bad : List Attempt) (r : Nat) (a : Attempt) (rest : List Attempt),
      (∀ b ∈ bad, b.status ≠ 0 ∧ containsChars syncMarker b.output = false) →
      r + bad.length ≤ 4 → a.status = 0 →
      loadBitstream r (bad ++ a :: rest) = .success := by
  intro bad
  induction bad with
  | nil =>
    intro r a rest _ _ ha
    simp only [List.nil_append]
    unfold loadBitstream
    rw [if_pos ha]
  | cons b bad ih =>
    intro r a rest hall hlen ha
    have hb := hall b (by simp)
    simp only [List.length_cons] at hlen
    simp only [List.cons_append]
    unfold loadBitstream
    rw [if_neg hb.1, if_neg (by simp [hb.2]), if_neg (by omega : ¬ 5 ≤ r + 1)]
    exact ih (r + 1) a rest (fun x hx => hall x (by simp [hx])) (by omega) ha

/-- C3: in the bitstream-load stage, an attempt with exit status 0 succeeds
with no retry; a non-zero attempt whose transcript contains the literal
marker "Synchronization failed" fails fatally at once, with no further
attempt; non-zero attempts without the marker are retried, a fatal failure
being raised at the fifth consecutive failure, while a success within the
first four failures still succeeds. -/
theorem load_bitstream_retry_policy (a : Attempt) (rest bad : List Attempt) :
    (a.status = 0 → loadBitstream 0 (a :: rest) = .success) ∧
    (a.status ≠ 0 → containsChars syncMarker a.output = true →
      loadBitstream 0 (a :: rest) = .syncFailed) ∧
    (bad.length = 5 →
      (∀ b ∈ bad, b.status ≠ 0 ∧ containsChars syncMarker b.output = false) →
      loadBitstream 0 (bad ++ rest) = .loadFailed 5) ∧
    (bad.length ≤ 4 →
      (∀ b ∈ bad, b.status ≠ 0 ∧ containsChars syncMarker b.output = false) →
      a.status = 0 → loadBitstream 0 (bad ++ a :: rest) = .success) := by
  refine ⟨?_, ?_, ?_, ?_⟩
  · intro h
    unfold loadBitstream
    rw [if_pos h]
  · intro h1 h2
    unfold loadBitstream
    rw [if_neg h1, if_pos h2]
  · intro hlen hall
    refine loadBitstream_fail_run bad 0 rest ?_ hall (by omega)
    rintro rfl
    simp at hlen
  · intro hlen hall ha
    exact loadBitstream_success_after bad 0 a rest hall (by omega) ha

/-- Witness for C3: a clean first attempt succeeds; a failing attempt with
the marker aborts; five markerless failures exhaust the retries; four
failures followed by a success still succeed. -/
theorem load_bitstream_retry_policy_witness :
    loadBitstream 0 [(⟨0, []⟩ : Attempt)] = .success ∧
    loadBitstream 0 [(⟨1, syncMarker⟩ : Attempt)] = .syncFailed ∧
    loadBitstream 0 (List.replicate 5 (⟨1, []⟩ : Attempt)) = .loadFailed 5 ∧
    loadBitstream 0
        (List.replicate 4 (⟨1, []⟩ : Attempt) ++ [(⟨0, []⟩ : Attempt)]) =
      .success :=
  ⟨(load_bitstream_retry_policy ⟨0, []⟩ [] []).1 rfl,
   (load_bitstream_retry_policy ⟨1, syncMarker⟩ [] []).2.1 (by decide) (by decide),
   (load_bitstream_retry_policy ⟨1, []⟩ []
      (List.replicate 5 (⟨1, []⟩ : Attempt))).2.2.1 (by decide) (by decide),
   (load_bitstream_retry_policy ⟨0, []⟩ []
      (List.replicate 4 (⟨1, []⟩ : Attempt))).2.2.2 (by decide) (by decide) rfl⟩

/-! ## Lemmas about the console-launch retry loop -/

theorem pySplit1_head (sep : Char) :
    ∀ l : List Char,
      ∃ f ls, pySplit1 sep l = f :: ls ∧ f = l.takeWhile (fun c => c != sep) := by
  intro l
  induction l with
  | nil => exact ⟨[], [], rfl, rfl⟩
  | cons c rest ih =>
    obtain ⟨f, ls, heq, hf⟩ := ih
    by_cases h : c = sep
    · refine ⟨[], f :: ls, ?_, ?_⟩
      · unfold pySplit1
        rw [heq]
        simp [h]
      · simp [h]
    · refine ⟨c :: f, ls, ?_, ?_⟩
      · unfold pySplit1
        rw [heq]
        simp [h]
      · simp [List.takeWhile_cons, h, hf]

theorem pyFirstField_eq_takeWhile (l : List Char) :
    pyFirstField l = l.takeWhile (fun c => c != ':') := by
  obtain ⟨f, ls, heq, hf⟩ := pySplit1_head ':' l
  unfold pyFirstField
  rw [heq]
  exact hf

theorem launch_fail_run (fid : List Char) (mr : Nat) :
    ∀ (outs : List (List Char)) (r : Nat) (rest : List (List Char)),
      outs ≠ [] → (∀ o ∈ outs, (matchingLines fid o).length ≠ 1) →
      r + outs.length = mr →
      launchConsole fid mr r (outs ++ rest) = (.failed mr, outs.length) := by
  intro outs
  induction outs with
  | nil =>
    intro r rest h
    exact absurd rfl h
  | cons o outs ih =>
    intro r rest _ hall hlen
    have ho := hall o (by simp)
    simp only [List.length_cons] at hlen
    simp only [List.cons_append]
    unfold launchConsole
    rw [if_neg ho]
    by_cases hb : outs = []
    · subst hb
      simp only [List.length_nil, Nat.zero_add] at hlen
      rw [if_pos (by omega)]
      have : r + 1 = mr := by omega
      rw [this]
      simp
    · have hpos : 0 < outs.length := List.length_pos.mpr hb
      rw [if_neg (by omega : ¬ mr ≤ r + 1)]
      rw [ih (r + 1) rest hb (fun o ho' => hall o (by simp [ho'])) (by omega)]
      simp

theorem launch_success_after (fid : List Char) (mr : Nat) (out ln : List Char)
    (hline : matchingLines fid out = [ln]) :
    ∀ (outs : List (List Char)) (r : Nat) (rest : List (List Char)),
      (∀ o ∈ outs, (matchingLines fid o).length ≠ 1) →
      r + outs.length + 1 ≤ mr →
      launchConsole fid mr r (outs ++ out :: rest) =
        (.launched (pyFirstField ln), outs.length) := by
  intro outs
  induction outs with
  | nil =>
    intro r rest _ _
    simp only [List.nil_append]
    unfold launchConsole
    rw [if_pos (by rw [hline]; rfl)]
    simp [hline]
  | cons o outs ih =>
    intro r rest hall hlen
    have ho := hall o (by simp)
    simp only [List.length_cons] at hlen
    simp only [List.cons_append]
    unfold launchConsole
    rw [if_neg ho, if_neg (by omega : ¬ mr ≤ r + 1)]
    rw [ih (r + 1) rest (fun x hx => hall x (by simp [hx])) (by omega)]
    simp

/-- C4: when the transcript of a console-launch attempt has exactly one line
containing both the device marker and ": ", the resolved device token is the
part of that line before its first colon and the issued JTAG command is
`set_jtag` followed by that token; when each of the first `max_retries`
attempts has zero or several such lines, one interrupt byte is sent per
failed attempt and a fatal error naming the retry count is raised; failed
attempts followed by a single-line attempt within the bound still launch. -/
theorem launch_console_detection (fid out ln : List Char) (mr : Nat)
    (outs rest : List (List Char)) :
    (matchingLines fid out = [ln] →
      (launchConsole fid mr 0 (out :: rest)).1 =
        .launched (ln.takeWhile (fun c => c != ':')) ∧
      consoleJtag (launchConsole fid mr 0 (out :: rest)).1 =
        some (("set_jtag ").toList ++ ln.takeWhile (fun c => c != ':'))) ∧
    (1 ≤ mr → outs.length = mr →
      (∀ o ∈ outs, (matchingLines fid o).length ≠ 1) →
      launchConsole fid mr 0 (outs ++ rest) = (.failed mr, mr)) ∧
    (outs.length + 1 ≤ mr →
      (∀ o ∈ outs, (matchingLines fid o).length ≠ 1) →
      matchingLines fid out = [ln] →
      launchConsole fid mr 0 (outs ++ out :: rest) =
        (.launched (ln.takeWhile (fun c => c != ':')), outs.length)) := by
  refine ⟨?_, ?_, ?_⟩
  · intro h
    constructor
    · unfold launchConsole
      rw [if_pos (by rw [h]; rfl)]
      simp [h, pyFirstField_eq_takeWhile]
    · unfold launchConsole
      rw [if_pos (by rw [h]; rfl)]
      simp [h, pyFirstField_eq_takeWhile, consoleJtag, jtagCommandFor]
  · intro h1 h2 hall
    have hne : outs ≠ [] := by
      rintro rfl
      simp at h2
      omega
    have := launch_fail_run fid mr outs 0 rest hne hall (by omega)
    rw [this, h2]
  · intro hlen hall h
    rw [launch_success_after fid mr out ln h outs 0 rest hall (by omega),
      pyFirstField_eq_takeWhile]

/-- Witness for C4: one matching line resolves the device and issues the
`set_jtag` command; five bad attempts fail naming 5; two bad attempts then a
good one launch after two interrupts. -/
theorem launch_console_detection_witness :
    (launchConsole (("F").toList) 5 0 [("@1#F#Intel x: ok").toList]).1 =
      .launched (("@1#F#Intel x").toList) ∧
    consoleJtag (launchConsole (("F").toList) 5 0
        [("@1#F#Intel x: ok").toList]).1 =
      some (("set_jtag @1#F#Intel x").toList) ∧
    launchConsole (("F").toList) 5 0 (List.replicate 5 (("junk").toList)) =
      (.failed 5, 5) ∧
    launchConsole (("F").toList) 5 0
        (List.replicate 2 (("junk").toList) ++ [("@1#F#Intel x: ok").toList]) =
      (.launched (("@1#F#Intel x").toList), 2) := by
  have h1 := (launch_console_detection (("F").toList) (("@1#F#Intel x: ok").toList)
    (("@1#F#Intel x: ok").toList) 5 (List.replicate 5 (("junk").toList)) []).1
    (by decide)
  have h2 := (launch_console_detection (("F").toList) (("@1#F#Intel x: ok").toList)
    (("@1#F#Intel x: ok").toList) 5 (List.replicate 5 (("junk").toList)) []).2.1
    (by decide) (by decide) (by decide)
  have h3 := (launch_console_detection (("F").toList) (("@1#F#Intel x: ok").toList)
    (("@1#F#Intel x: ok").toList) 5 (List.replicate 2 (("junk").toList)) []).2.2
    (by decide) (by decide) (by decide)
  refine ⟨?_, ?_, ?_, ?_⟩
  · rw [h1.1]
    decide
  · rw [h1.2]
    decide
  · exact h2
  · rw [h3]
    decide

/-! ## Lemmas about watch_command -/

theorem charsWindow_pos (maxLen : Nat) (s : List Char) (h : 0 < maxLen) :
    charsWindow maxLen s = trailingChars maxLen s := by
  unfold charsWindow trailingChars
  by_cases h0 : min s.length maxLen = 0
  · rw [if_pos h0]
    have hs : s.length = 0 := by omega
    have : s = [] := List.eq_nil_of_length_eq_zero hs
    subst this
    simp
  · rw [if_neg h0]
    congr 1
    omega

theorem watchOutput_stops (m : List Char → Bool) (maxLen : Nat) :
    ∀ (chunks : List (List Char)) (acc : List Char) (i : Nat),
      i ≤ chunks.length →
      (∀ j, j < i → m (charsWindow maxLen (acc ++ (chunks.take j).flatten)) = false) →
      m (charsWindow maxLen (acc ++ (chunks.take i).flatten)) = true →
      watchOutput m maxLen acc chunks = acc ++ (chunks.take i).flatten := by
  intro chunks
  induction chunks with
  | nil =>
    intro acc i hi _ _
    simp only [List.length_nil, Nat.le_zero] at hi
    subst hi
    simp only [List.take_nil, List.flatten_nil, List.append_nil]
    rfl
  | cons c cs ih =>
    intro acc i hi hbef hm
    cases i with
    | zero =>
      simp only [List.take_zero, List.flatten_nil, List.append_nil] at hm ⊢
      unfold watchOutput
      rw [if_pos hm]
    | succ n =>
      have h0 := hbef 0 (Nat.succ_pos n)
      simp only [List.take_zero, List.flatten_nil, List.append_nil] at h0
      unfold watchOutput
      rw [if_neg (by simp [h0])]
      simp only [List.take_succ_cons, List.flatten_cons, ← List.append_assoc] at hm ⊢
      refine ih (acc ++ c) n (by simpa using hi) ?_ hm
      intro j hj
      have := hbef (j + 1) (by omega)
      simpa only [List.take_succ_cons, List.flatten_cons, ← List.append_assoc]
        using this

theorem watchOutput_runs (m : List Char → Bool) (maxLen : Nat) :
    ∀ (chunks : List (List Char)) (acc : List Char),
      (∀ j, j ≤ chunks.length →
        m (charsWindow maxLen (acc ++ (chunks.take j).flatten)) = false) →
      watchOutput m maxLen acc chunks = acc ++ chunks.flatten := by
  intro chunks
  induction chunks with
  | nil =>
    intro acc _
    simp only [List.flatten_nil, List.append_nil]
    rfl
  | cons c cs ih =>
    intro acc hall
    have h0 := hall 0 (by omega)
    simp only [List.take_zero, List.flatten_nil, List.append_nil] at h0
    unfold watchOutput
    rw [if_neg (by simp [h0])]
    simp only [List.flatten_cons, ← List.append_assoc]
    refine ih (acc ++ c) ?_
    intro j hj
    have := hall (j + 1) (by simpa using hj)
    simpa only [List.take_succ_cons, List.flatten_cons, ← List.append_assoc]
      using this

/-- Counterexample to C1 as stated: with `max_match_length = 0`, Python's
slice `output[-0:]` denotes the whole buffer, so the pattern "ab" — which
never matches the empty trailing-0-character window at any checkpoint — still
stops the loop as soon as the buffer contains it: the watch returns after the
first chunk instead of running to completion. -/
theorem watch_window_zero_cex :
    watchOutput abMatcher 0 [] [("ab").toList, ("c").toList] = ("ab").toList ∧
    watchOutput abMatcher 0 [] [("ab").toList, ("c").toList] ≠
      ("ab").toList ++ ("c").toList ∧
    abMatcher (trailingChars 0 []) = false ∧
    abMatcher (trailingChars 0 (("ab").toList)) = false ∧
    abMatcher (trailingChars 0 (("ab").toList ++ ("c").toList)) = false := by
  decide

/-- C1 (amended): for `max_match_length ≥ 1` (the default is 1024),
`watch_command` with a stop pattern stops at the first point where the
pattern matches within the trailing `max_match_length` characters of the
transcript accumulated so far, returning exactly that transcript, and never
stops on account of the pattern when it does not match the trailing window at
any checkpoint; with `max_match_length = 0`, however, the Python slice
`output[-0:]` is the entire transcript, so the whole buffer is searched. -/
theorem watch_stop_trailing_window (m : List Char → Bool) (maxLen : Nat)
    (chunks : List (List Char)) (i : Nat) (hmax : 0 < maxLen) :
    (i ≤ chunks.length →
      (∀ j, j < i → m (trailingChars maxLen ((chunks.take j).flatten)) = false) →
      m (trailingChars maxLen ((chunks.take i).flatten)) = true →
      watchOutput m maxLen [] chunks = (chunks.take i).flatten) ∧
    ((∀ j, j ≤ chunks.length →
        m (trailingChars maxLen ((chunks.take j).flatten)) = false) →
      watchOutput m maxLen [] chunks = chunks.flatten) := by
  constructor
  · intro hi hbef hm
    have hb : ∀ j, j < i →
        m (charsWindow maxLen ([] ++ (chunks.take j).flatten)) = false := by
      intro j hj
      rw [List.nil_append, charsWindow_pos maxLen _ hmax]
      exact hbef j hj
    have hm' : m (charsWindow maxLen ([] ++ (chunks.take i).flatten)) = true := by
      rw [List.nil_append, charsWindow_pos maxLen _ hmax]
      exact hm
    have := watchOutput_stops m maxLen chunks [] i hi hb hm'
    simpa using this
  · intro hall
    have hb : ∀ j, j ≤ chunks.length →
        m (charsWindow maxLen ([] ++ (chunks.take j).flatten)) = false := by
      intro j hj
      rw [List.nil_append, charsWindow_pos maxLen _ hmax]
      exact hall j hj
    have := watchOutput_runs m maxLen chunks [] hb
    simpa using this

/-- Witness for C1's amended theorem: with window 4 the pattern "ab" first
matches at the second checkpoint and the watch returns "xab"; a pattern that
never matches lets the watch run to completion. -/
theorem watch_stop_trailing_window_witness :
    watchOutput abMatcher 4 [] [("x").toList, ("ab").toList] =
      ("x").toList ++ ("ab").toList ∧
    watchOutput abMatcher 4 [] [("x").toList, ("y").toList] =
      (([("x").toList, ("y").toList] : List (List Char))).flatten := by
  constructor
  · have h := (watch_stop_trailing_window abMatcher 4
      [("x").toList, ("ab").toList] 2 (by decide)).1
      (by decide) (by decide) (by decide)
    simpa using h
  · exact (watch_stop_trailing_window abMatcher 4
      [("x").toList, ("y").toList] 2 (by decide)).2 (by decide)

end Netexp
